import Mathlib

/-!
# Verification of the VIL virtual machine (`deindex` repository)

Shallow embedding of the core of the repository:

* `Amount` — the fixed-point scalar of `src/libs/deli/src/amount.rs`;
* the operand stack, register file and every `Stack` method of
  `src/contracts/devil/src/program.rs`;
* the instruction dispatch loop `Program::execute_with_stack` together
  with a finite-map model of the `VectorIO` store adapter.

Machine integers are embedded as `Nat` with explicit bounds: a Rust
`u128` value is a `Nat` below `2^128`, and the 256-bit intermediate
arithmetic of `Amount` is performed with an explicit `% 2^256` where the
underlying `U256` operator wraps.  Fallible Rust code returns
`Except`/`Option`-like results; places where the Rust code can abort
(out-of-bounds `Vec` indexing, `unwrap` of `None`, division by zero
inside the `U256` `/` operator) are embedded as an explicit `.panic`
outcome.
-/

namespace Deindex

/-- `2^128`, the modulus of Rust's `u128`. -/
def U128MOD : Nat := 2 ^ 128

/-- `2^256`, the modulus of the 256-bit `U256` intermediate type. -/
def U256MOD : Nat := 2 ^ 256

/-- The fixed-point scalar of `amount.rs`: a 128-bit unsigned magnitude
with implicit decimal scale `10^18` (`pub struct Amount(pub u128)`).
The `u128` range constraint of the Rust type is carried as a proof. -/
structure Amount where
  val : Nat
  isLt : val < U128MOD

instance : DecidableEq Amount := fun a b =>
  if h : a.val = b.val then
    isTrue (by cases a; cases b; simp_all)
  else
    isFalse (by intro hh; cases hh; exact h rfl)

/-- `Amount::SCALE = 1_000_000_000__000_000_000`. -/
def Amount.SCALE : Nat := 1000000000000000000

theorem Amount.scale_lt : Amount.SCALE < U128MOD := by
  unfold Amount.SCALE U128MOD; norm_num

/-- `Amount::ZERO`. -/
def Amount.ZERO : Amount := ⟨0, by unfold U128MOD; norm_num⟩

/-- `Amount::ONE = Amount(SCALE)`. -/
def Amount.ONE : Amount := ⟨Amount.SCALE, Amount.scale_lt⟩

/-- Modelled from the spec: `Amount::MAX` is not defined in the copy of
`amount.rs` under `src/`, but `program.rs` uses it as the seed of `vmin`
and the spec lists it among the constants of the type; the largest
representable magnitude is `2^128 - 1`. -/
def Amount.MAX : Amount := ⟨U128MOD - 1, by unfold U128MOD; norm_num⟩

/-- `try_convert_to_u128`: a 256-bit value narrows to `u128` exactly
when it is below `2^128` (`uint_try_to().ok()`). -/
def tryConvertToU128 (v : Nat) : Option Amount :=
  if h : v < U128MOD then some ⟨v, h⟩ else none

/-- `Amount::checked_add`: the sum is formed at 256 bits (no wrap is
possible for two 128-bit summands) and narrowed with a range check. -/
def Amount.checked_add (a b : Amount) : Option Amount :=
  tryConvertToU128 ((a.val + b.val) % U256MOD)

/-- `Amount::checked_sub`: the difference is formed by the `U256`
subtraction operator, which wraps modulo `2^256` (release-build
semantics of the underlying `ruint` operator), then narrowed with a
range check.  An underflowed difference wraps to a value `≥ 2^255` and
therefore fails the narrow. -/
def Amount.checked_sub (a b : Amount) : Option Amount :=
  tryConvertToU128 ((a.val + U256MOD - b.val) % U256MOD)

/-- `Amount::checked_mul`: `(a·b)/SCALE` at 256 bits (the product of two
128-bit values cannot wrap), narrowed with a range check. -/
def Amount.checked_mul (a b : Amount) : Option Amount :=
  tryConvertToU128 (a.val * b.val / Amount.SCALE % U256MOD)

/-- The closed error taxonomy `ErrorCode` of `program.rs`. -/
inductive ErrorCode where
  | StackUnderflow
  | StackOverflow
  | InvalidInstruction
  | InvalidOperand
  | NotFound
  | OutOfRange
  | NotAligned
  | MathUnderflow
  | MathOverflow
deriving DecidableEq

/-- Outcome of a Rust computation that can abort the process:
`.panic` marks an execution on which the Rust code panics
(out-of-bounds indexing, `unwrap` of `None`, division by zero inside
the `U256` `/` operator). -/
inductive PRes (α : Type) where
  | ok (a : α)
  | err (e : ErrorCode)
  | panic
deriving DecidableEq

/-- `Amount::checked_div`: the numerator `a·SCALE` is formed at 256 bits
(it always fits, being below `2^128 · 10^18 < 2^188`), and the quotient
is narrowed with a range check.  The `U256` division operator of the
underlying `ruint` library asserts a non-zero divisor, so `b = 0` makes
the Rust function panic rather than return `None`. -/
def Amount.checked_div (a b : Amount) : PRes (Option Amount) :=
  if b.val = 0 then .panic
  else .ok (tryConvertToU128 (a.val * Amount.SCALE / b.val % U256MOD))

/-- Modelled from the spec: `Amount::checked_sqrt` is used by the `sqrt`
instruction of `program.rs` but is absent from the copy of `amount.rs`
under `src/`.  The spec describes it as the integer square root in the
fixed-point sense, `sqrt(a·SCALE)`, returning `Some` except on
representation overflow (which cannot occur: `sqrt(a·S) < 2^94`). -/
def Amount.checked_sqrt (a : Amount) : Option Amount :=
  tryConvertToU128 (Nat.sqrt (a.val * Amount.SCALE))

/-- `Amount::from_u128_raw(value)`: wraps the raw `u128` magnitude with
no rescaling.  The `% 2^128` only embeds the `u128` domain of the Rust
argument; it is the identity for every value a Rust caller can pass. -/
def Amount.from_u128_raw (value : Nat) : Amount :=
  ⟨value % U128MOD, Nat.mod_lt _ (by unfold U128MOD; norm_num)⟩

/-- `Amount.min` via the derived `Ord` on the `u128` magnitude. -/
def Amount.min (a b : Amount) : Amount := if a.val ≤ b.val then a else b

/-- `Amount.max` via the derived `Ord` on the `u128` magnitude. -/
def Amount.max (a b : Amount) : Amount := if a.val ≤ b.val then b else a

/-- The tagged operand union of `program.rs`.  `Labels` carries a list
of `u128` tags and `Vector` a list of `Amount` (the `deli` container
types are plain wrappers around a `Vec`, as their uses in `program.rs`
show). -/
inductive Operand where
  | none
  | labels (data : List Nat)
  | vector (data : List Amount)
  | scalar (a : Amount)
  | label (l : Nat)
deriving DecidableEq

/-- The operand stack and register file (`struct Stack`).  The Rust
stack is a `Vec` growing at the end; here the HEAD of `stack` is the
top of the stack, so positional depth `pos` (0 = TOS) is plain list
indexing. -/
structure Stack where
  stack : List Operand
  registry : List Operand
deriving DecidableEq

/-- `Stack::new(num_registers)`. -/
def Stack.new (numRegisters : Nat) : Stack :=
  ⟨[], List.replicate numRegisters .none⟩

/-- Componentwise checked loop over one vector (`for i in 0..len`),
failing at the first component on which `f` fails. -/
def mapChecked (f : Amount → Option Amount) : List Amount → Option (List Amount)
  | [] => some []
  | x :: xs =>
    match f x with
    | some y => (mapChecked f xs).map (y :: ·)
    | Option.none => Option.none

/-- Componentwise checked loop over two equal-length vectors; the
callers check alignment first, so the truncating base case is never
reached with lists of different lengths. -/
def zipChecked (f : Amount → Amount → Option Amount) :
    List Amount → List Amount → Option (List Amount)
  | x1 :: xs1, x2 :: xs2 =>
    match f x1 x2 with
    | some y => (zipChecked f xs1 xs2).map (y :: ·)
    | Option.none => Option.none
  | _, _ => some []

/-- The `get_stack_index` / `split_last_mut` / `rest.get(stack_index)`
pattern shared by the paired operations: validate the position against
the whole stack (`StackUnderflow` past the bottom), split off the TOS,
and read the operand at depth `pos` from the remainder (`OutOfRange`
when `pos = 0`, because the absolute index then points past the end of
the remainder). -/
def Stack.peekPair (s : List Operand) (pos : Nat) : PRes (Operand × Operand × List Operand) :=
  match s with
  | [] => .err .StackUnderflow
  | v1 :: rest =>
    if rest.length < pos then .err .StackUnderflow
    else if pos = 0 then .err .OutOfRange
    else
      match rest.get? (pos - 1) with
      | some v2 => .ok (v1, v2, rest)
      | Option.none => .err .OutOfRange

/-- `Stack::push`. -/
def Stack.push (s : Stack) (o : Operand) : Stack :=
  { s with stack := o :: s.stack }

/-- `Stack::pop`. -/
def Stack.pop (s : Stack) : PRes (Operand × Stack) :=
  match s.stack with
  | [] => .err .StackUnderflow
  | o :: rest => .ok (o, { s with stack := rest })

/-- `Stack::ldd(pos)` — deep-clone the operand at depth `pos` and push
the copy. -/
def Stack.ldd (s : Stack) (pos : Nat) : PRes Stack :=
  match s.stack with
  | [] => .err .StackUnderflow
  | v1 :: rest =>
    if rest.length < pos then .err .StackUnderflow
    else
      match (v1 :: rest).get? pos with
      | some v => .ok (s.push v)
      | Option.none => .err .OutOfRange

/-- `Stack::ldr(pos)` — push a clone of register `pos`. -/
def Stack.ldr (s : Stack) (pos : Nat) : PRes Stack :=
  match s.registry.get? pos with
  | some v => .ok (s.push v)
  | Option.none => .err .OutOfRange

/-- `Stack::op_str(pos)` — pop the TOS into register `pos`; the
register bound is checked before the pop. -/
def Stack.op_str (s : Stack) (pos : Nat) : PRes Stack :=
  if pos < s.registry.length then
    match s.stack with
    | [] => .err .StackUnderflow
    | o :: rest => .ok ⟨rest, s.registry.set pos o⟩
  else .err .OutOfRange

/-- Collect the drained operands of `pkv` (bottom-most first), failing
on any non-`Scalar`. -/
def collectScalars : List Operand → Option (List Amount)
  | [] => some []
  | .scalar x :: rest => (collectScalars rest).map (x :: ·)
  | _ => Option.none

/-- Collect the drained operands of `pkl` (bottom-most first), failing
on any non-`Label`. -/
def collectLabels : List Operand → Option (List Nat)
  | [] => some []
  | .label x :: rest => (collectLabels rest).map (x :: ·)
  | _ => Option.none

/-- `Stack::pkv(count)` — drain the top `count` operands (deepest
first) into a new `Vector`. -/
def Stack.pkv (s : Stack) (count : Nat) : PRes Stack :=
  if s.stack.length = 0 then .err .StackUnderflow
  else if s.stack.length < count then .err .StackUnderflow
  else
    match collectScalars ((s.stack.take count).reverse) with
    | some xs => .ok { s with stack := .vector xs :: s.stack.drop count }
    | Option.none => .err .InvalidOperand

/-- `Stack::pkl(count)` — drain the top `count` operands (deepest
first) into a new `Labels`. -/
def Stack.pkl (s : Stack) (count : Nat) : PRes Stack :=
  if s.stack.length = 0 then .err .StackUnderflow
  else if s.stack.length < count then .err .StackUnderflow
  else
    match collectLabels ((s.stack.take count).reverse) with
    | some xs => .ok { s with stack := .labels xs :: s.stack.drop count }
    | Option.none => .err .InvalidOperand

/-- `Stack::unpk` — pop a container and push its elements atom by atom
(the originally-first element ends up deepest). -/
def Stack.unpk (s : Stack) : PRes Stack :=
  match s.stack with
  | [] => .err .StackUnderflow
  | .vector d :: rest =>
      .ok { s with stack := (d.map Operand.scalar).reverse ++ rest }
  | .labels d :: rest =>
      .ok { s with stack := (d.map Operand.label).reverse ++ rest }
  | _ :: _ => .err .InvalidOperand

/-- Collect the drained operands of `transpose` (bottom-most first),
failing on any non-`Vector`. -/
def collectVectors : List Operand → Option (List (List Amount))
  | [] => some []
  | .vector v :: rest => (collectVectors rest).map (v :: ·)
  | _ => Option.none

/-- `Stack::transpose(count)` — pop `count` equal-length vectors and
push the `num_rows` row vectors of their transpose, row 0 deepest. -/
def Stack.transpose (s : Stack) (count : Nat) : PRes Stack :=
  if count = 0 then .err .InvalidOperand
  else if count = 1 then s.unpk
  else if s.stack.length = 0 then .err .StackUnderflow
  else if s.stack.length < count then .err .StackUnderflow
  else
    match collectVectors ((s.stack.take count).reverse) with
    | some vectors =>
      let numRows := (vectors.headD []).length
      if vectors.any (fun v => v.length ≠ numRows) then .err .InvalidOperand
      else
        let transposed := (List.range numRows).map
          (fun row => vectors.map (fun v => v.getD row Amount.ZERO))
        .ok { s with stack :=
          (transposed.map Operand.vector).reverse ++ s.stack.drop count }
    | Option.none => .err .InvalidOperand

/-- `Stack::add(pos)` — in-place checked addition on the TOS; every
failing component surfaces as `MathOverflow`. -/
def Stack.add (s : Stack) (pos : Nat) : PRes Stack :=
  if pos = 0 then
    match s.stack with
    | [] => .err .StackUnderflow
    | .vector d :: rest =>
      match mapChecked (fun x => x.checked_add x) d with
      | some d' => .ok { s with stack := .vector d' :: rest }
      | Option.none => .err .MathOverflow
    | .scalar x :: rest =>
      match x.checked_add x with
      | some y => .ok { s with stack := .scalar y :: rest }
      | Option.none => .err .MathOverflow
    | _ :: _ => .err .InvalidOperand
  else
    match Stack.peekPair s.stack pos with
    | .ok (.vector d1, .vector d2, rest) =>
      if d1.length ≠ d2.length then .err .NotAligned
      else
        match zipChecked Amount.checked_add d1 d2 with
        | some d' => .ok { s with stack := .vector d' :: rest }
        | Option.none => .err .MathOverflow
    | .ok (.vector d1, .scalar x2, rest) =>
      match mapChecked (fun x => x.checked_add x2) d1 with
      | some d' => .ok { s with stack := .vector d' :: rest }
      | Option.none => .err .MathOverflow
    | .ok (.scalar x1, .scalar x2, rest) =>
      match x1.checked_add x2 with
      | some y => .ok { s with stack := .scalar y :: rest }
      | Option.none => .err .MathOverflow
    | .ok _ => .err .InvalidOperand
    | .err e => .err e
    | .panic => .panic

/-- `Stack::sub(pos)` — in-place checked subtraction on the TOS.  The
self-op (`pos = 0`) overwrites every component with `ZERO`.  A failing
component surfaces as `MathUnderflow` in the Vector−Vector arm but as
`MathOverflow` in the Vector−Scalar and Scalar−Scalar arms (the error
codes at lines 391, 397 and 403 of `program.rs`). -/
def Stack.sub (s : Stack) (pos : Nat) : PRes Stack :=
  if pos = 0 then
    match s.stack with
    | [] => .err .StackUnderflow
    | .vector d :: rest =>
      .ok { s with stack := .vector (d.map (fun _ => Amount.ZERO)) :: rest }
    | .scalar _ :: rest =>
      .ok { s with stack := .scalar Amount.ZERO :: rest }
    | _ :: _ => .err .InvalidOperand
  else
    match Stack.peekPair s.stack pos with
    | .ok (.vector d1, .vector d2, rest) =>
      if d1.length ≠ d2.length then .err .NotAligned
      else
        match zipChecked Amount.checked_sub d1 d2 with
        | some d' => .ok { s with stack := .vector d' :: rest }
        | Option.none => .err .MathUnderflow
    | .ok (.vector d1, .scalar x2, rest) =>
      match mapChecked (fun x => x.checked_sub x2) d1 with
      | some d' => .ok { s with stack := .vector d' :: rest }
      | Option.none => .err .MathOverflow
    | .ok (.scalar x1, .scalar x2, rest) =>
      match x1.checked_sub x2 with
      | some y => .ok { s with stack := .scalar y :: rest }
      | Option.none => .err .MathOverflow
    | .ok _ => .err .InvalidOperand
    | .err e => .err e
    | .panic => .panic

/-- `Stack::mul(pos)` — in-place checked fixed-point multiplication on
the TOS; every failing component surfaces as `MathOverflow`. -/
def Stack.mul (s : Stack) (pos : Nat) : PRes Stack :=
  if pos = 0 then
    match s.stack with
    | [] => .err .StackUnderflow
    | .vector d :: rest =>
      match mapChecked (fun x => x.checked_mul x) d with
      | some d' => .ok { s with stack := .vector d' :: rest }
      | Option.none => .err .MathOverflow
    | .scalar x :: rest =>
      match x.checked_mul x with
      | some y => .ok { s with stack := .scalar y :: rest }
      | Option.none => .err .MathOverflow
    | _ :: _ => .err .InvalidOperand
  else
    match Stack.peekPair s.stack pos with
    | .ok (.vector d1, .vector d2, rest) =>
      if d1.length ≠ d2.length then .err .NotAligned
      else
        match zipChecked Amount.checked_mul d1 d2 with
        | some d' => .ok { s with stack := .vector d' :: rest }
        | Option.none => .err .MathOverflow
    | .ok (.vector d1, .scalar x2, rest) =>
      match mapChecked (fun x => x.checked_mul x2) d1 with
      | some d' => .ok { s with stack := .vector d' :: rest }
      | Option.none => .err .MathOverflow
    | .ok (.scalar x1, .scalar x2, rest) =>
      match x1.checked_mul x2 with
      | some y => .ok { s with stack := .scalar y :: rest }
      | Option.none => .err .MathOverflow
    | .ok _ => .err .InvalidOperand
    | .err e => .err e
    | .panic => .panic

/-- Componentwise division loop over two equal-length vectors; a `None`
quotient surfaces as `MathOverflow`, a zero divisor as a panic. -/
def zipDiv : List Amount → List Amount → PRes (List Amount)
  | x1 :: xs1, x2 :: xs2 =>
    match Amount.checked_div x1 x2 with
    | .ok (some y) =>
      match zipDiv xs1 xs2 with
      | .ok ys => .ok (y :: ys)
      | .err e => .err e
      | .panic => .panic
    | .ok Option.none => .err .MathOverflow
    | .err e => .err e
    | .panic => .panic
  | _, _ => .ok []

/-- Componentwise division of a vector by one scalar. -/
def mapDiv (x2 : Amount) : List Amount → PRes (List Amount)
  | [] => .ok []
  | x :: xs =>
    match Amount.checked_div x x2 with
    | .ok (some y) =>
      match mapDiv x2 xs with
      | .ok ys => .ok (y :: ys)
      | .err e => .err e
      | .panic => .panic
    | .ok Option.none => .err .MathOverflow
    | .err e => .err e
    | .panic => .panic

/-- `Stack::div(pos)` — in-place checked fixed-point division on the
TOS.  The self-op (`pos = 0`) overwrites every component with `ONE`. -/
def Stack.div (s : Stack) (pos : Nat) : PRes Stack :=
  if pos = 0 then
    match s.stack with
    | [] => .err .StackUnderflow
    | .vector d :: rest =>
      .ok { s with stack := .vector (d.map (fun _ => Amount.ONE)) :: rest }
    | .scalar _ :: rest =>
      .ok { s with stack := .scalar Amount.ONE :: rest }
    | _ :: _ => .err .InvalidOperand
  else
    match Stack.peekPair s.stack pos with
    | .ok (.vector d1, .vector d2, rest) =>
      if d1.length ≠ d2.length then .err .NotAligned
      else
        match zipDiv d1 d2 with
        | .ok d' => .ok { s with stack := .vector d' :: rest }
        | .err e => .err e
        | .panic => .panic
    | .ok (.vector d1, .scalar x2, rest) =>
      match mapDiv x2 d1 with
      | .ok d' => .ok { s with stack := .vector d' :: rest }
      | .err e => .err e
      | .panic => .panic
    | .ok (.scalar x1, .scalar x2, rest) =>
      match Amount.checked_div x1 x2 with
      | .ok (some y) => .ok { s with stack := .scalar y :: rest }
      | .ok Option.none => .err .MathOverflow
      | .err e => .err e
      | .panic => .panic
    | .ok _ => .err .InvalidOperand
    | .err e => .err e
    | .panic => .panic

/-- `Stack::sqrt` — componentwise (or scalar) checked square root of
the TOS. -/
def Stack.sqrt (s : Stack) : PRes Stack :=
  match s.stack with
  | [] => .err .StackUnderflow
  | .vector d :: rest =>
    match mapChecked Amount.checked_sqrt d with
    | some d' => .ok { s with stack := .vector d' :: rest }
    | Option.none => .err .MathOverflow
  | .scalar x :: rest =>
    match x.checked_sqrt with
    | some y => .ok { s with stack := .scalar y :: rest }
    | Option.none => .err .MathOverflow
  | _ :: _ => .err .InvalidOperand

/-- The checked summation loop of `vsum` (seed `ZERO`, components in
order). -/
def sumChecked : Amount → List Amount → Option Amount
  | acc, [] => some acc
  | acc, x :: xs =>
    match acc.checked_add x with
    | some acc' => sumChecked acc' xs
    | Option.none => Option.none

/-- `Stack::vsum` — pop a vector and push the checked sum of its
components. -/
def Stack.vsum (s : Stack) : PRes Stack :=
  match s.stack with
  | [] => .err .StackUnderflow
  | .vector d :: rest =>
    match sumChecked Amount.ZERO d with
    | some acc => .ok { s with stack := .scalar acc :: rest }
    | Option.none => .err .MathOverflow
  | _ :: _ => .err .InvalidOperand

/-- `Stack::vmin` — pop a vector and push its least component (seed
`Amount::MAX`). -/
def Stack.vmin (s : Stack) : PRes Stack :=
  match s.stack with
  | [] => .err .StackUnderflow
  | .vector d :: rest =>
    .ok { s with stack := .scalar (d.foldl Amount.min Amount.MAX) :: rest }
  | _ :: _ => .err .InvalidOperand

/-- `Stack::vmax` — pop a vector and push its greatest component (seed
`0`). -/
def Stack.vmax (s : Stack) : PRes Stack :=
  match s.stack with
  | [] => .err .StackUnderflow
  | .vector d :: rest =>
    .ok { s with stack := .scalar (d.foldl Amount.max Amount.ZERO) :: rest }
  | _ :: _ => .err .InvalidOperand

/-- `Stack::min(pos)` — componentwise (or scalar) minimum of the TOS
with the operand at depth `pos`; there is no self-op branch and no
Vector/Scalar arm. -/
def Stack.min (s : Stack) (pos : Nat) : PRes Stack :=
  match Stack.peekPair s.stack pos with
  | .ok (.vector d1, .vector d2, rest) =>
    if d1.length ≠ d2.length then .err .NotAligned
    else .ok { s with stack := .vector (List.zipWith Amount.min d1 d2) :: rest }
  | .ok (.scalar x1, .scalar x2, rest) =>
    .ok { s with stack := .scalar (x1.min x2) :: rest }
  | .ok _ => .err .InvalidOperand
  | .err e => .err e
  | .panic => .panic

/-- `Stack::max(pos)` — componentwise (or scalar) maximum of the TOS
with the operand at depth `pos`. -/
def Stack.max (s : Stack) (pos : Nat) : PRes Stack :=
  match Stack.peekPair s.stack pos with
  | .ok (.vector d1, .vector d2, rest) =>
    if d1.length ≠ d2.length then .err .NotAligned
    else .ok { s with stack := .vector (List.zipWith Amount.max d1 d2) :: rest }
  | .ok (.scalar x1, .scalar x2, rest) =>
    .ok { s with stack := .scalar (x1.max x2) :: rest }
  | .ok _ => .err .InvalidOperand
  | .err e => .err e
  | .panic => .panic

/-- `Stack::zeros(pos)` — push a vector of zeros whose length is that
of the Labels or Vector at depth `pos` (the TOS itself is allowed). -/
def Stack.zeros (s : Stack) (pos : Nat) : PRes Stack :=
  match s.stack with
  | [] => .err .StackUnderflow
  | v1 :: rest =>
    if rest.length < pos then .err .StackUnderflow
    else
      match (v1 :: rest).get? pos with
      | some (.vector d) =>
        .ok (s.push (.vector (List.replicate d.length Amount.ZERO)))
      | some (.labels d) =>
        .ok (s.push (.vector (List.replicate d.length Amount.ZERO)))
      | some _ => .err .InvalidOperand
      | Option.none => .err .OutOfRange

/-- `Stack::ones(pos)` — push a vector of ones whose length is that of
the Labels or Vector at depth `pos`. -/
def Stack.ones (s : Stack) (pos : Nat) : PRes Stack :=
  match s.stack with
  | [] => .err .StackUnderflow
  | v1 :: rest =>
    if rest.length < pos then .err .StackUnderflow
    else
      match (v1 :: rest).get? pos with
      | some (.vector d) =>
        .ok (s.push (.vector (List.replicate d.length Amount.ONE)))
      | some (.labels d) =>
        .ok (s.push (.vector (List.replicate d.length Amount.ONE)))
      | some _ => .err .InvalidOperand
      | Option.none => .err .OutOfRange

/-- `Stack::imms(value)` — push the immediate code word as a `Scalar`
via `Amount::from_u128_raw`, i.e. as a raw fixed-point magnitude with
no rescaling. -/
def Stack.imms (s : Stack) (value : Nat) : PRes Stack :=
  .ok (s.push (.scalar (Amount.from_u128_raw value)))

/-- `Stack::imml(value)` — push the immediate code word as a `Label`. -/
def Stack.imml (s : Stack) (value : Nat) : PRes Stack :=
  .ok (s.push (.label value))

/-- `Stack::vpush(value)` — append `Amount::from_u128_raw(value)` to
the `Vector` at TOS. -/
def Stack.vpush (s : Stack) (value : Nat) : PRes Stack :=
  match s.stack with
  | [] => .err .StackUnderflow
  | .vector d :: rest =>
    .ok { s with stack := .vector (d ++ [Amount.from_u128_raw value]) :: rest }
  | _ :: _ => .err .InvalidOperand

/-- `Stack::lpush(value)` — append the raw word to the `Labels` at
TOS. -/
def Stack.lpush (s : Stack) (value : Nat) : PRes Stack :=
  match s.stack with
  | [] => .err .StackUnderflow
  | .labels d :: rest =>
    .ok { s with stack := .labels (d ++ [value]) :: rest }
  | _ :: _ => .err .InvalidOperand

/-- `Stack::vpop` — remove the last component of the `Vector` at TOS
and push it as a `Scalar` above the container. -/
def Stack.vpop (s : Stack) : PRes Stack :=
  match s.stack with
  | [] => .err .StackUnderflow
  | .vector d :: rest =>
    match d.getLast? with
    | some x => .ok { s with stack := .scalar x :: .vector d.dropLast :: rest }
    | Option.none => .err .OutOfRange
  | _ :: _ => .err .InvalidOperand

/-- `Stack::lpop` — remove the last tag of the `Labels` at TOS and push
it as a `Label` above the container. -/
def Stack.lpop (s : Stack) : PRes Stack :=
  match s.stack with
  | [] => .err .StackUnderflow
  | .labels d :: rest =>
    match d.getLast? with
    | some x => .ok { s with stack := .label x :: .labels d.dropLast :: rest }
    | Option.none => .err .OutOfRange
  | _ :: _ => .err .InvalidOperand

/-- `Stack::op_pop(count)` — drop the top `count` operands. -/
def Stack.op_pop (s : Stack) (count : Nat) : PRes Stack :=
  if s.stack.length = 0 then .err .StackUnderflow
  else if s.stack.length < count then .err .StackUnderflow
  else .ok { s with stack := s.stack.drop count }

/-- `Stack::swap(pos)` — exchange the TOS with the operand at depth
`pos`. -/
def Stack.swap (s : Stack) (pos : Nat) : PRes Stack :=
  match s.stack with
  | [] => .err .StackUnderflow
  | v1 :: rest =>
    if rest.length < pos then .err .StackUnderflow
    else if pos = 0 then .err .OutOfRange
    else
      match rest.get? (pos - 1) with
      | some v2 =>
        .ok { s with stack := v2 :: rest.set (pos - 1) v1 }
      | Option.none => .err .OutOfRange

/-- The sorted union-merge loop of `Stack::lunn`: on equal heads one
copy is taken and both pointers advance; otherwise the smaller head is
taken. -/
def lunnMerge : List Nat → List Nat → List Nat
  | [], [] => []
  | a :: as_, [] => a :: lunnMerge as_ []
  | [], b :: bs => b :: lunnMerge [] bs
  | a :: as_, b :: bs =>
    if a < b then a :: lunnMerge as_ (b :: bs)
    else if a = b then a :: lunnMerge as_ bs
    else b :: lunnMerge (a :: as_) bs
termination_by la lb => la.length + lb.length

/-- `Stack::lunn(pos)` — merge the `Labels` at TOS with the `Labels` at
depth `pos` and push the union on top of the (otherwise untouched)
stack. -/
def Stack.lunn (s : Stack) (pos : Nat) : PRes Stack :=
  match Stack.peekPair s.stack pos with
  | .ok (.labels la, .labels lb, _) =>
    .ok { s with stack := .labels (lunnMerge la lb) :: s.stack }
  | .ok (.labels _, _, _) => .err .InvalidOperand
  | .ok _ => .err .InvalidOperand
  | .err e => .err e
  | .panic => .panic

/-- The left-outer merge-join loop of `Stack::jadd` on label/value
pairs (the alignment check performed before the loop makes the
index-based Rust loop equivalent to this pair-list recursion).  A label
of the right operand with no counterpart on the left is skipped; a
label of the left operand with no counterpart on the right keeps its
value unchanged. -/
def jaddMerge : List (Nat × Amount) → List (Nat × Amount) → Except ErrorCode (List Amount)
  | [], _ => .ok []
  | av :: as_, [] => (jaddMerge as_ []).map (av.2 :: ·)
  | (la, va) :: as_, (lb, vb) :: bs =>
    if la < lb then (jaddMerge as_ ((lb, vb) :: bs)).map (va :: ·)
    else if la = lb then
      match va.checked_add vb with
      | some y => (jaddMerge as_ bs).map (y :: ·)
      | Option.none => .error .MathOverflow
    else jaddMerge ((la, va) :: as_) bs
termination_by a b => a.length + b.length

/-- `Stack::jadd(pos_labels_a, pos_labels_b)` — pop the two vectors on
top of the stack (TOS first), read the two `Labels` operands at the
positions given relative to the original stack, check alignment, and
push the left-outer merge-join sum.  The unguarded
`len().checked_sub(1).unwrap()` makes the Rust code panic when nothing
remains below the two popped vectors. -/
def Stack.jadd (s : Stack) (posLabelsA posLabelsB : Nat) : PRes Stack :=
  match s.stack with
  | o1 :: o2 :: rem =>
    match o1 with
    | .vector va =>
      match o2 with
      | .vector vb =>
        if posLabelsA < 2 then .err .OutOfRange
        else if posLabelsB < 2 then .err .OutOfRange
        else if rem.length = 0 then .panic
        else if rem.length - 1 < posLabelsA - 2 then .err .OutOfRange
        else if rem.length - 1 < posLabelsB - 2 then .err .OutOfRange
        else
          match rem.get? (posLabelsA - 2), rem.get? (posLabelsB - 2) with
          | Option.none, _ => .err .OutOfRange
          | some _, Option.none => .err .OutOfRange
          | some (.labels la), some (.labels lb) =>
            if la.length ≠ va.length ∨ lb.length ≠ vb.length then
              .err .NotAligned
            else
              match jaddMerge (la.zip va) (lb.zip vb) with
              | .ok res => .ok { s with stack := .vector res :: rem }
              | .error e => .err e
          | some (.labels _), some _ => .err .InvalidOperand
          | some _, some _ => .err .InvalidOperand
      | _ => .err .InvalidOperand
    | _ => .err .InvalidOperand
  | _ => .err .StackUnderflow

/-! ## The store adapter and the dispatch loop -/

/-- Finite-map lookup for the store model. -/
def assocGet {α : Type} (m : List (Nat × α)) (k : Nat) : Option α :=
  match m with
  | [] => Option.none
  | (k', v) :: rest => if k' = k then some v else assocGet rest k

/-- Finite-map update for the store model. -/
def assocSet {α : Type} (m : List (Nat × α)) (k : Nat) (v : α) : List (Nat × α) :=
  match m with
  | [] => [(k, v)]
  | (k', v') :: rest =>
    if k' = k then (k, v) :: rest else (k', v') :: assocSet rest k v

/-- A concrete `VectorIO` store: three key→value maps, one per value
kind, with the map semantics of the in-repo adapters (`TestVectorIO`):
a missing key fails a load with `NotFound`, a store inserts or
replaces. -/
structure Store where
  labels : List (Nat × List Nat)
  vectors : List (Nat × List Amount)
  scalars : List (Nat × Amount)
deriving DecidableEq

/-- The empty store. -/
def Store.empty : Store := ⟨[], [], []⟩

/-- `VectorIO::load_labels`. -/
def Store.load_labels (io : Store) (id : Nat) : Except ErrorCode (List Nat) :=
  match assocGet io.labels id with
  | some v => .ok v
  | Option.none => .error .NotFound

/-- `VectorIO::load_vector`. -/
def Store.load_vector (io : Store) (id : Nat) : Except ErrorCode (List Amount) :=
  match assocGet io.vectors id with
  | some v => .ok v
  | Option.none => .error .NotFound

/-- `VectorIO::load_scalar`. -/
def Store.load_scalar (io : Store) (id : Nat) : Except ErrorCode Amount :=
  match assocGet io.scalars id with
  | some v => .ok v
  | Option.none => .error .NotFound

/-- `VectorIO::store_labels`. -/
def Store.store_labels (io : Store) (id : Nat) (input : List Nat) : Store :=
  { io with labels := assocSet io.labels id input }

/-- `VectorIO::store_vector`. -/
def Store.store_vector (io : Store) (id : Nat) (input : List Amount) : Store :=
  { io with vectors := assocSet io.vectors id input }

/-- `VectorIO::store_scalar`. -/
def Store.store_scalar (io : Store) (id : Nat) (input : Amount) : Store :=
  { io with scalars := assocSet io.scalars id input }

/-- `code[pc] as usize` — the truncating cast of a `u128` code word to
the machine word (64-bit here); the identity for every argument an
actual program uses. -/
def asUsize (w : Nat) : Nat := w % 2 ^ 64

def OP_LDL : Nat := 10
def OP_LDV : Nat := 11
def OP_LDS : Nat := 12
def OP_LDD : Nat := 13
def OP_LDR : Nat := 14
def OP_STL : Nat := 20
def OP_STV : Nat := 21
def OP_STS : Nat := 22
def OP_STR : Nat := 23
def OP_PKV : Nat := 30
def OP_PKL : Nat := 31
def OP_UNPK : Nat := 32
def OP_VPUSH : Nat := 33
def OP_VPOP : Nat := 34
def OP_T : Nat := 35
def OP_LUNN : Nat := 40
def OP_LPUSH : Nat := 41
def OP_LPOP : Nat := 42
def OP_ADD : Nat := 50
def OP_SUB : Nat := 51
def OP_MUL : Nat := 52
def OP_DIV : Nat := 53
def OP_SQRT : Nat := 54
def OP_MIN : Nat := 60
def OP_MAX : Nat := 61
def OP_VSUM : Nat := 70
def OP_VMIN : Nat := 71
def OP_VMAX : Nat := 72
def OP_IMMS : Nat := 80
def OP_IMML : Nat := 81
def OP_ZEROS : Nat := 82
def OP_ONES : Nat := 83
def OP_POP : Nat := 90
def OP_SWAP : Nat := 91
def OP_JADD : Nat := 92
def OP_B : Nat := 93
def OP_FOLD : Nat := 94

/-- Outcome of one invocation of `Program::execute_with_stack`.  The
store travels with both success and error outcomes, because the Rust
engine works through a `&mut` store that keeps every mutation performed
before an error.  `.panic` marks executions on which the Rust code
aborts; `.outOfFuel` only marks that the chosen step budget of this
embedding ran out (the Rust loop has no such bound). -/
inductive ExecRes where
  | ok (st : Stack) (io : Store)
  | err (e : ErrorCode) (io : Store)
  | panic
  | outOfFuel
deriving DecidableEq

/-- `Program::execute_with_stack` — the word-by-word dispatch loop.
`pc` points at the next opcode; each instruction reads its argument
words with unchecked indexing (`code[pc]`), so an argument word beyond
the end of the code is a panic, while an unknown opcode is
`InvalidInstruction`.  Fuel decreases once per instruction and on
subroutine entry. -/
def execute_with_stack : Nat → List Nat → Nat → Stack → Store → ExecRes
  | 0, _, _, _, _ => .outOfFuel
  | f + 1, code, pc, st, io =>
    if hpc : pc < code.length then
      let op := code.get ⟨pc, hpc⟩
      let cont := fun (pc' : Nat) (r : PRes Stack) =>
        match r with
        | .ok st' => execute_with_stack f code pc' st' io
        | .err e => .err e io
        | .panic => .panic
      if op = OP_LDL then
        match code.get? (pc + 1) with
        | some idw =>
          match io.load_labels idw with
          | .ok v => execute_with_stack f code (pc + 2) (st.push (.labels v)) io
          | .error e => .err e io
        | Option.none => .panic
      else if op = OP_LDV then
        match code.get? (pc + 1) with
        | some idw =>
          match io.load_vector idw with
          | .ok v => execute_with_stack f code (pc + 2) (st.push (.vector v)) io
          | .error e => .err e io
        | Option.none => .panic
      else if op = OP_LDS then
        match code.get? (pc + 1) with
        | some idw =>
          match io.load_scalar idw with
          | .ok v => execute_with_stack f code (pc + 2) (st.push (.scalar v)) io
          | .error e => .err e io
        | Option.none => .panic
      else if op = OP_STL then
        match code.get? (pc + 1) with
        | some idw =>
          match st.pop with
          | .ok (.labels v, st') =>
            execute_with_stack f code (pc + 2) st' (io.store_labels idw v)
          | .ok _ => .err .InvalidOperand io
          | .err e => .err e io
          | .panic => .panic
        | Option.none => .panic
      else if op = OP_STV then
        match code.get? (pc + 1) with
        | some idw =>
          match st.pop with
          | .ok (.vector v, st') =>
            execute_with_stack f code (pc + 2) st' (io.store_vector idw v)
          | .ok _ => .err .InvalidOperand io
          | .err e => .err e io
          | .panic => .panic
        | Option.none => .panic
      else if op = OP_STS then
        match code.get? (pc + 1) with
        | some idw =>
          match st.pop with
          | .ok (.scalar v, st') =>
            execute_with_stack f code (pc + 2) st' (io.store_scalar idw v)
          | .ok _ => .err .InvalidOperand io
          | .err e => .err e io
          | .panic => .panic
        | Option.none => .panic
      else if op = OP_LDD then
        match code.get? (pc + 1) with
        | some w => cont (pc + 2) (st.ldd (asUsize w))
        | Option.none => .panic
      else if op = OP_LDR then
        match code.get? (pc + 1) with
        | some w => cont (pc + 2) (st.ldr (asUsize w))
        | Option.none => .panic
      else if op = OP_STR then
        match code.get? (pc + 1) with
        | some w => cont (pc + 2) (st.op_str (asUsize w))
        | Option.none => .panic
      else if op = OP_PKV then
        match code.get? (pc + 1) with
        | some w => cont (pc + 2) (st.pkv (asUsize w))
        | Option.none => .panic
      else if op = OP_PKL then
        match code.get? (pc + 1) with
        | some w => cont (pc + 2) (st.pkl (asUsize w))
        | Option.none => .panic
      else if op = OP_UNPK then cont (pc + 1) st.unpk
      else if op = OP_T then
        match code.get? (pc + 1) with
        | some w => cont (pc + 2) (st.transpose (asUsize w))
        | Option.none => .panic
      else if op = OP_ADD then
        match code.get? (pc + 1) with
        | some w => cont (pc + 2) (st.add (asUsize w))
        | Option.none => .panic
      else if op = OP_SUB then
        match code.get? (pc + 1) with
        | some w => cont (pc + 2) (st.sub (asUsize w))
        | Option.none => .panic
      else if op = OP_MUL then
        match code.get? (pc + 1) with
        | some w => cont (pc + 2) (st.mul (asUsize w))
        | Option.none => .panic
      else if op = OP_DIV then
        match code.get? (pc + 1) with
        | some w => cont (pc + 2) (st.div (asUsize w))
        | Option.none => .panic
      else if op = OP_SQRT then cont (pc + 1) st.sqrt
      else if op = OP_VSUM then cont (pc + 1) st.vsum
      else if op = OP_MIN then
        match code.get? (pc + 1) with
        | some w => cont (pc + 2) (st.min (asUsize w))
        | Option.none => .panic
      else if op = OP_MAX then
        match code.get? (pc + 1) with
        | some w => cont (pc + 2) (st.max (asUsize w))
        | Option.none => .panic
      else if op = OP_LUNN then
        match code.get? (pc + 1) with
        | some w => cont (pc + 2) (st.lunn (asUsize w))
        | Option.none => .panic
      else if op = OP_ZEROS then
        match code.get? (pc + 1) with
        | some w => cont (pc + 2) (st.zeros (asUsize w))
        | Option.none => .panic
      else if op = OP_ONES then
        match code.get? (pc + 1) with
        | some w => cont (pc + 2) (st.ones (asUsize w))
        | Option.none => .panic
      else if op = OP_IMMS then
        match code.get? (pc + 1) with
        | some w => cont (pc + 2) (st.imms w)
        | Option.none => .panic
      else if op = OP_IMML then
        match code.get? (pc + 1) with
        | some w => cont (pc + 2) (st.imml w)
        | Option.none => .panic
      else if op = OP_VMIN then cont (pc + 1) st.vmin
      else if op = OP_VMAX then cont (pc + 1) st.vmax
      else if op = OP_VPUSH then
        match code.get? (pc + 1) with
        | some w => cont (pc + 2) (st.vpush w)
        | Option.none => .panic
      else if op = OP_LPUSH then
        match code.get? (pc + 1) with
        | some w => cont (pc + 2) (st.lpush w)
        | Option.none => .panic
      else if op = OP_VPOP then cont (pc + 1) st.vpop
      else if op = OP_LPOP then cont (pc + 1) st.lpop
      else if op = OP_POP then
        match code.get? (pc + 1) with
        | some w => cont (pc + 2) (st.op_pop (asUsize w))
        | Option.none => .panic
      else if op = OP_SWAP then
        match code.get? (pc + 1) with
        | some w => cont (pc + 2) (st.swap (asUsize w))
        | Option.none => .panic
      else if op = OP_JADD then
        match code.get? (pc + 1), code.get? (pc + 2) with
        | some w1, some w2 =>
          cont (pc + 3) (st.jadd (asUsize w1) (asUsize w2))
        | _, _ => .panic
      else if op = OP_B then
        match code.get? (pc + 1), code.get? (pc + 2),
              code.get? (pc + 3), code.get? (pc + 4) with
        | some w1, some w2, some w3, some w4 =>
          let numInputs := asUsize w2
          let numOutputs := asUsize w3
          let numRegs := asUsize w4
          match io.load_labels w1 with
          | .error e => .err e io
          | .ok cod =>
            if st.stack.length < numInputs then .err .StackUnderflow io
            else
              match execute_with_stack f cod 0
                  ⟨st.stack.take numInputs, List.replicate numRegs .none⟩ io with
              | .ok st' io' =>
                if st'.stack.length < numOutputs then .err .StackUnderflow io'
                else
                  execute_with_stack f code (pc + 5)
                    ⟨st'.stack.take numOutputs ++ st.stack.drop numInputs,
                     st.registry⟩ io'
              | other => other
        | _, _, _, _ => .panic
      else if op = OP_FOLD then
        match code.get? (pc + 1), code.get? (pc + 2),
              code.get? (pc + 3), code.get? (pc + 4) with
        | some w1, some w2, some w3, some w4 =>
          let numInputs := asUsize w2
          let numOutputs := asUsize w3
          let numRegs := asUsize w4
          match io.load_labels w1 with
          | .error e => .err e io
          | .ok cod =>
            match st.stack with
            | [] => .err .StackUnderflow io
            | source :: restStack =>
              if restStack.length < numInputs then .err .StackUnderflow io
              else
                let items : Option (List Operand) :=
                  match source with
                  | .labels d => some (d.map Operand.label)
                  | .vector d => some (d.map Operand.scalar)
                  | _ => Option.none
                match items with
                | Option.none => .err .InvalidOperand io
                | some its =>
                  let res := its.foldl
                    (fun (acc : ExecRes) (item : Operand) =>
                      match acc with
                      | .ok stAcc ioAcc =>
                        execute_with_stack f cod 0
                          { stAcc with stack := item :: stAcc.stack } ioAcc
                      | o => o)
                    (ExecRes.ok ⟨restStack.take numInputs, List.replicate numRegs .none⟩ io)
                  match res with
                  | .ok st' io' =>
                    if st'.stack.length < numOutputs then .err .StackUnderflow io'
                    else
                      execute_with_stack f code (pc + 5)
                        ⟨st'.stack.take numOutputs ++ restStack.drop numInputs,
                         st.registry⟩ io'
                  | other => other
        | _, _, _, _ => .panic
      else .err .InvalidInstruction io
    else .ok st io

/-! ## Helper lemmas about `Amount` arithmetic -/

theorem Amount.val_inj {a b : Amount} (h : a.val = b.val) : a = b := by
  cases a; cases b; simpa using h

theorem u128mod_lt_u256mod : U128MOD < U256MOD := by
  unfold U128MOD U256MOD; norm_num

theorem two_u128mod_le_u256mod : U128MOD + U128MOD ≤ U256MOD := by
  unfold U128MOD U256MOD; norm_num

/-- `checked_add` computes the exact sum iff it fits in 128 bits. -/
theorem Amount.checked_add_val (a b : Amount) :
    Option.map Amount.val (a.checked_add b) =
      if a.val + b.val < U128MOD then some (a.val + b.val) else Option.none := by
  have ha := a.isLt
  have hb := b.isLt
  unfold Amount.checked_add tryConvertToU128
  rw [Nat.mod_eq_of_lt (by
    have := two_u128mod_le_u256mod
    omega)]
  split <;> simp_all

/-- `checked_sub` computes the exact difference iff no underflow: the
wrapped 256-bit difference of an underflow lands above `2^128`. -/
theorem Amount.checked_sub_val (a b : Amount) :
    Option.map Amount.val (a.checked_sub b) =
      if b.val ≤ a.val then some (a.val - b.val) else Option.none := by
  have ha := a.isLt
  have hb := b.isLt
  have hmm := two_u128mod_le_u256mod
  unfold Amount.checked_sub tryConvertToU128
  rcases le_or_lt b.val a.val with hba | hba
  · have h1 : a.val + U256MOD - b.val = (a.val - b.val) + U256MOD := by omega
    rw [h1, Nat.add_mod_right, Nat.mod_eq_of_lt (by omega),
      dif_pos (show a.val - b.val < U128MOD by omega), if_pos hba]
    simp
  · have h1 : (a.val + U256MOD - b.val) % U256MOD = a.val + U256MOD - b.val :=
      Nat.mod_eq_of_lt (by omega)
    rw [h1, dif_neg (show ¬a.val + U256MOD - b.val < U128MOD by omega),
      if_neg (by omega)]
    simp

/-- `checked_sub` fails exactly on underflow. -/
theorem Amount.checked_sub_eq_none_iff (a b : Amount) :
    a.checked_sub b = Option.none ↔ a.val < b.val := by
  have h := Amount.checked_sub_val a b
  rcases hcs : a.checked_sub b with _ | y <;> rw [hcs] at h
  · constructor
    · intro _
      by_contra hc
      push_neg at hc
      simp [if_pos hc] at h
    · intro _; rfl
  · constructor
    · intro hn; cases hn
    · intro hlt
      rw [if_neg (by omega)] at h
      simp at h

/-- `checked_sub` succeeds exactly without underflow, with the exact
difference. -/
theorem Amount.checked_sub_eq_some (a b : Amount) (h : b.val ≤ a.val) :
    ∃ c, a.checked_sub b = some c ∧ c.val = a.val - b.val := by
  have hv := Amount.checked_sub_val a b
  rw [if_pos h] at hv
  rcases hcs : a.checked_sub b with _ | y <;> rw [hcs] at hv
  · simp at hv
  · exact ⟨y, rfl, by simpa using hv⟩

/-! ## Theorems for the claims -/

/-- **C5.** For all `Amount` values `a` and `b` (below `2^128` by the
`u128` type), `checked_add(a,b)` returns `Some(a+b)` iff `a+b < 2^128`
and `None` otherwise, and `checked_sub(a,b)` returns `Some(a−b)` iff
`a ≥ b` and `None` otherwise. -/
theorem checked_add_sub_complete (a b : Amount) :
    (Option.map Amount.val (a.checked_add b) =
       if a.val + b.val < U128MOD then some (a.val + b.val) else Option.none)
    ∧ (Option.map Amount.val (a.checked_sub b) =
       if b.val ≤ a.val then some (a.val - b.val) else Option.none) :=
  ⟨Amount.checked_add_val a b, Amount.checked_sub_val a b⟩

/-- **C6.** The claim says `checked_div(a,b)` returns `None` when
`b = 0`; on the code, the raw `U256` division operator asserts a
non-zero divisor, so `checked_div(1, 0)` aborts (panics) instead of
returning `None`. -/
theorem checked_div_zero_panics :
    Amount.checked_div (Amount.from_u128_raw 1) (Amount.from_u128_raw 0) = .panic
    ∧ Amount.checked_div (Amount.from_u128_raw 1) (Amount.from_u128_raw 0) ≠
        .ok Option.none := by
  constructor
  · decide
  · decide

/-- **C10.** `imms(v)` pushes a `Scalar` whose raw 128-bit magnitude is
exactly the immediate word `v` (no rescaling), `vpush(v)` appends
`Amount::from_u128_raw(v)` to the vector at TOS, and in particular the
immediate `1` denotes the smallest positive fixed-point value
(`10^-18`), not the `Amount` one. -/
theorem imms_vpush_raw_magnitude :
    (∀ (st : Stack) (v : Nat) (hv : v < U128MOD),
       Stack.imms st v = .ok { st with stack := .scalar ⟨v, hv⟩ :: st.stack })
    ∧ (∀ (d : List Amount) (rest reg : List Operand) (v : Nat) (hv : v < U128MOD),
       Stack.vpush ⟨.vector d :: rest, reg⟩ v =
         .ok ⟨.vector (d ++ [⟨v, hv⟩]) :: rest, reg⟩)
    ∧ (Amount.from_u128_raw 1).val = 1
    ∧ Amount.from_u128_raw 1 ≠ Amount.ONE := by
  refine ⟨?_, ?_, by decide, by decide⟩
  · intro st v hv
    have : Amount.from_u128_raw v = ⟨v, hv⟩ :=
      Amount.val_inj (by simp [Amount.from_u128_raw, Nat.mod_eq_of_lt hv])
    simp [Stack.imms, Stack.push, this]
  · intro d rest reg v hv
    have : Amount.from_u128_raw v = ⟨v, hv⟩ :=
      Amount.val_inj (by simp [Amount.from_u128_raw, Nat.mod_eq_of_lt hv])
    simp [Stack.vpush, this]

/-- Witness for C10 at `v = 1` on the empty stack and on a singleton
vector. -/
theorem imms_vpush_raw_magnitude_witness :
    Stack.imms (Stack.new 0) 1 =
      .ok ⟨[.scalar ⟨1, by norm_num [U128MOD]⟩], []⟩
    ∧ Stack.vpush ⟨[.vector []], []⟩ 1 =
      .ok ⟨[.vector [⟨1, by norm_num [U128MOD]⟩]], []⟩ := by
  have h := imms_vpush_raw_magnitude
  exact ⟨h.1 (Stack.new 0) 1 (by norm_num [U128MOD]),
         h.2.1 [] [] [] 1 (by norm_num [U128MOD])⟩

/-- Witness for C5 at `a = 3`, `b = 5`: the sum fits, the difference
underflows. -/
theorem checked_add_sub_complete_witness :
    Option.map Amount.val
        (Amount.checked_add (Amount.from_u128_raw 3) (Amount.from_u128_raw 5)) =
      some 8
    ∧ Option.map Amount.val
        (Amount.checked_sub (Amount.from_u128_raw 3) (Amount.from_u128_raw 5)) =
      Option.none := by
  have h := checked_add_sub_complete (Amount.from_u128_raw 3) (Amount.from_u128_raw 5)
  constructor
  · rw [h.1, if_pos (by decide)]; decide
  · rw [h.2, if_neg (by decide)]

/-- **C1 (counterexample).** The claim says a failed invocation leaves
the store equal to the initial store.  The program
`IMMS 7; STS 1; 99` stores the scalar `7` under key `1` and then hits
the unknown opcode `99`: execution returns `InvalidInstruction`, yet
the final store contains the write and differs from the (empty)
initial store — store writes are not rolled back by the engine. -/
theorem error_keeps_prior_store_writes_counterexample :
    execute_with_stack 20 [80, 7, 22, 1, 99, 80, 8, 22, 2] 0 (Stack.new 0)
        Store.empty =
      .err .InvalidInstruction ⟨[], [], [(1, Amount.from_u128_raw 7)]⟩
    ∧ (⟨[], [], [(1, Amount.from_u128_raw 7)]⟩ : Store) ≠ Store.empty := by
  constructor
  · decide
  · decide

/-- **C1 (amended).** An error aborts the remainder of the invocation —
no instruction after the failing one executes, so no store write after
the failure occurs — but store writes performed before the failing
instruction persist in the store: the engine does not roll the store
back to its initial state.  Demonstrated on
`IMMS 7; STS 1; 99; IMMS 8; STS 2`: the run fails with
`InvalidInstruction` at opcode `99`; key `1` (written before the
failure) holds `7` in the final store, while key `2` (whose write
follows the failing instruction) is absent. -/
theorem error_aborts_but_keeps_prior_store_writes :
    execute_with_stack 20 [80, 7, 22, 1, 99, 80, 8, 22, 2] 0 (Stack.new 0)
        Store.empty =
      .err .InvalidInstruction ⟨[], [], [(1, Amount.from_u128_raw 7)]⟩
    ∧ Store.load_scalar ⟨[], [], [(1, Amount.from_u128_raw 7)]⟩ 1 =
        .ok (Amount.from_u128_raw 7)
    ∧ Store.load_scalar ⟨[], [], [(1, Amount.from_u128_raw 7)]⟩ 2 =
        .error .NotFound := by
  refine ⟨by decide, by rfl, by rfl⟩

/-- **C2.** The claim (and the spec) say a code stream that ends
mid-instruction returns `InvalidInstruction`.  On the code, the
argument words are read with unchecked indexing (`code[pc]`), so the
one-word program `[10]` (`LDL` without its id word) makes the Rust
engine panic with an out-of-bounds index instead of returning
`InvalidInstruction`. -/
theorem truncated_instruction_panics :
    execute_with_stack 5 [10] 0 (Stack.new 0) Store.empty = .panic
    ∧ ∀ io : Store,
        execute_with_stack 5 [10] 0 (Stack.new 0) Store.empty ≠
          .err .InvalidInstruction io := by
  constructor
  · decide
  · intro io h
    rw [show execute_with_stack 5 [10] 0 (Stack.new 0) Store.empty = .panic
          from by decide] at h
    cases h

/-- **C4 (counterexample).** With the stack holding, from bottom to top,
`Labels_a = [10,20,30]`, `Labels_b = [20]`, `V_a = [1.0, 2.0, 3.0]`,
`V_b = [0.5]` (so `V_b` is the TOS), `jadd 3 2` pops `V_b` first and
pairs it with the `Labels` at position 3 (`Labels_a`, length 3): the
alignment check fails and the instruction returns `NotAligned` rather
than succeeding with `[1.0, 2.5, 3.0]`. -/
theorem jadd_spec_scenario_counterexample :
    Stack.jadd
        ⟨[.vector [Amount.from_u128_raw 500000000000000000],
          .vector [Amount.from_u128_raw 1000000000000000000,
                   Amount.from_u128_raw 2000000000000000000,
                   Amount.from_u128_raw 3000000000000000000],
          .labels [20], .labels [10, 20, 30]], []⟩ 3 2 =
      .err .NotAligned := by decide

/-- **C4 (amended).** With the two vectors in the opposite order — the
stack holding, from bottom to top, `Labels_a = [10,20,30]`,
`Labels_b = [20]`, `V_b = [0.5]`, `V_a = [1.0, 2.0, 3.0]` (the carrier
vector at TOS) — `jadd 3 2` succeeds and leaves the vector
`[1.0, 2.5, 3.0]` on top of the stack (the two source vectors are
consumed). -/
theorem jadd_merge_join_scenario :
    Stack.jadd
        ⟨[.vector [Amount.from_u128_raw 1000000000000000000,
                   Amount.from_u128_raw 2000000000000000000,
                   Amount.from_u128_raw 3000000000000000000],
          .vector [Amount.from_u128_raw 500000000000000000],
          .labels [20], .labels [10, 20, 30]], []⟩ 3 2 =
      .ok ⟨[.vector [Amount.from_u128_raw 1000000000000000000,
                     Amount.from_u128_raw 2500000000000000000,
                     Amount.from_u128_raw 3000000000000000000],
            .labels [20], .labels [10, 20, 30]], []⟩ := by
  simp [Stack.jadd, jaddMerge, Except.map, Amount.checked_add, tryConvertToU128,
        Amount.from_u128_raw, U128MOD, U256MOD]

/-! ## Lemmas about the merge loops -/

/-- The union merge contains exactly the elements of its operands. -/
theorem lunnMerge_mem (a b : List Nat) (x : Nat) :
    x ∈ lunnMerge a b ↔ x ∈ a ∨ x ∈ b := by
  induction a, b using lunnMerge.induct with
  | case1 => simp [lunnMerge]
  | case2 a as_ ih => rw [lunnMerge]; simp_all
  | case3 b bs ih => rw [lunnMerge]; simp_all
  | case4 a as_ b bs h ih => rw [lunnMerge, if_pos h]; simp_all; tauto
  | case5 as_ b bs h ih =>
    rw [lunnMerge, if_neg h, if_pos rfl]
    simp_all
    tauto
  | case6 a as_ b bs h1 h2 ih =>
    rw [lunnMerge, if_neg h1, if_neg h2]
    simp_all
    tauto

/-- The union merge of two strictly ascending lists is strictly
ascending. -/
theorem lunnMerge_sorted (a b : List Nat) :
    List.Sorted (· < ·) a → List.Sorted (· < ·) b →
      List.Sorted (· < ·) (lunnMerge a b) := by
  induction a, b using lunnMerge.induct with
  | case1 => intro _ _; simp [lunnMerge]
  | case2 a as_ ih =>
    intro ha hb
    rw [lunnMerge]
    rw [List.sorted_cons] at ha ⊢
    refine ⟨?_, ih ha.2 hb⟩
    intro y hy
    rw [lunnMerge_mem] at hy
    rcases hy with hy | hy
    · exact ha.1 y hy
    · simp at hy
  | case3 b bs ih =>
    intro ha hb
    rw [lunnMerge]
    rw [List.sorted_cons] at hb ⊢
    refine ⟨?_, ih ha hb.2⟩
    intro y hy
    rw [lunnMerge_mem] at hy
    rcases hy with hy | hy
    · simp at hy
    · exact hb.1 y hy
  | case4 a as_ b bs h ih =>
    intro ha hb
    rw [lunnMerge, if_pos h]
    rw [List.sorted_cons] at ha ⊢
    refine ⟨?_, ih ha.2 hb⟩
    intro y hy
    rw [lunnMerge_mem] at hy
    rcases hy with hy | hy
    · exact ha.1 y hy
    · rcases List.mem_cons.mp hy with rfl | hy
      · exact h
      · exact lt_trans h ((List.sorted_cons.mp hb).1 y hy)
  | case5 as_ b bs hlt ih =>
    intro ha hb
    rw [lunnMerge, if_neg hlt, if_pos rfl]
    rw [List.sorted_cons] at ha hb ⊢
    refine ⟨?_, ih ha.2 hb.2⟩
    intro y hy
    rw [lunnMerge_mem] at hy
    rcases hy with hy | hy
    · exact ha.1 y hy
    · exact hb.1 y hy
  | case6 a as_ b bs h1 h2 ih =>
    intro ha hb
    rw [lunnMerge, if_neg h1, if_neg h2]
    rw [List.sorted_cons] at hb ⊢
    have hba : b < a := by omega
    refine ⟨?_, ih ha hb.2⟩
    intro y hy
    rw [lunnMerge_mem] at hy
    rcases hy with hy | hy
    · rcases List.mem_cons.mp hy with rfl | hy
      · exact hba
      · exact lt_trans hba ((List.sorted_cons.mp ha).1 y hy)
    · exact hb.1 y hy

/-- The merge-join loop of `jadd` never produces `MathUnderflow`: its
only arithmetic error is `MathOverflow` from a failing `checked_add`;
addend labels with no counterpart on the carrier are skipped. -/
theorem jaddMerge_ne_underflow (a b : List (Nat × Amount)) :
    jaddMerge a b ≠ Except.error ErrorCode.MathUnderflow := by
  induction a, b using jaddMerge.induct with
  | case1 x => simp [jaddMerge]
  | case2 av as_ ih =>
    rw [jaddMerge]
    cases h : jaddMerge as_ [] <;> simp_all [Except.map]
  | case3 la va as_ lb vb bs h ih =>
    rw [jaddMerge, if_pos h]
    cases hm : jaddMerge as_ ((lb, vb) :: bs) <;> simp_all [Except.map]
  | case4 va as_ lb vb bs y hadd h ih =>
    rw [jaddMerge, if_neg h, if_pos rfl, hadd]
    cases hm : jaddMerge as_ bs <;> simp_all [Except.map]
  | case5 va as_ lb vb bs hadd h =>
    rw [jaddMerge, if_neg h, if_pos rfl, hadd]
    simp
  | case6 la va as_ lb vb bs h1 h2 ih =>
    rw [jaddMerge, if_neg h1, if_neg h2]
    exact ih

/-- **C3 (counterexample).** Carrier labels `A = [10]` (aligned with
vector `[10]`), addend labels `B = [5]` (aligned with vector `[20]`),
both strictly ascending, and `B ⊄ A`.  `jadd 3 2` does not return
`MathUnderflow`: it succeeds, silently skipping the addend label `5`
and leaving the carrier's value unchanged. -/
theorem jadd_nonsubset_counterexample :
    Stack.jadd ⟨[.vector [Amount.from_u128_raw 10],
                 .vector [Amount.from_u128_raw 20],
                 .labels [5], .labels [10]], []⟩ 3 2 =
      .ok ⟨[.vector [Amount.from_u128_raw 10], .labels [5], .labels [10]], []⟩
    ∧ Stack.jadd ⟨[.vector [Amount.from_u128_raw 10],
                   .vector [Amount.from_u128_raw 20],
                   .labels [5], .labels [10]], []⟩ 3 2 ≠
        .err .MathUnderflow := by
  have h : Stack.jadd ⟨[.vector [Amount.from_u128_raw 10],
                        .vector [Amount.from_u128_raw 20],
                        .labels [5], .labels [10]], []⟩ 3 2 =
      .ok ⟨[.vector [Amount.from_u128_raw 10], .labels [5], .labels [10]], []⟩ := by
    simp [Stack.jadd, jaddMerge, Except.map]
  refine ⟨h, ?_⟩
  rw [h]
  simp

/-- **C3 (amended).** `jadd` performs no subset check and never returns
`MathUnderflow` — on any stack and any positions: addend labels that do
not appear in the carrier are silently skipped by the left-outer merge
join, and the only arithmetic error `jadd` can produce is
`MathOverflow`. -/
theorem jadd_never_underflow (s : Stack) (posA posB : Nat) :
    Stack.jadd s posA posB ≠ .err .MathUnderflow := by
  intro h
  unfold Stack.jadd at h
  repeat (any_goals (split at h))
  all_goals simp_all [jaddMerge_ne_underflow]

/-- Witness for C3 on a concrete aligned stack. -/
theorem jadd_never_underflow_witness :
    Stack.jadd ⟨[.vector [Amount.from_u128_raw 4],
                 .vector [Amount.from_u128_raw 6],
                 .labels [7], .labels [9]], []⟩ 3 2 ≠ .err .MathUnderflow :=
  jadd_never_underflow ⟨[.vector [Amount.from_u128_raw 4],
                         .vector [Amount.from_u128_raw 6],
                         .labels [7], .labels [9]], []⟩ 3 2

/-- **C7.** For `Labels` operands `A` at TOS and `B` at depth `pos`,
both strictly ascending, `lunn` succeeds and the `Labels` it produces
is strictly ascending and contains exactly the set-union of the
elements of `A` and `B`. -/
theorem lunion_sorted_union (A B : List Nat) (rest reg : List Operand) (pos : Nat)
    (hpos : 1 ≤ pos) (hB : rest.get? (pos - 1) = some (.labels B))
    (hsA : List.Sorted (· < ·) A) (hsB : List.Sorted (· < ·) B) :
    Stack.lunn ⟨.labels A :: rest, reg⟩ pos =
        .ok ⟨.labels (lunnMerge A B) :: .labels A :: rest, reg⟩
      ∧ List.Sorted (· < ·) (lunnMerge A B)
      ∧ ∀ x, x ∈ lunnMerge A B ↔ x ∈ A ∨ x ∈ B := by
  have hlen : pos - 1 < rest.length := by
    by_contra hc
    push_neg at hc
    rw [List.get?_eq_none.mpr hc] at hB
    cases hB
  refine ⟨?_, lunnMerge_sorted A B hsA hsB, fun x => lunnMerge_mem A B x⟩
  unfold Stack.lunn Stack.peekPair
  simp only
  rw [if_neg (by omega), if_neg (by omega), hB]

/-- Witness for C7 on the spec's own scenario `A = [1,3,5]`,
`B = [2,3,7]`: the produced union is `[1,2,3,5,7]`. -/
theorem lunion_sorted_union_witness :
    Stack.lunn ⟨[.labels [1, 3, 5], .labels [2, 3, 7]], []⟩ 1 =
      .ok ⟨[.labels [1, 2, 3, 5, 7], .labels [1, 3, 5], .labels [2, 3, 7]], []⟩ := by
  have h := (lunion_sorted_union [1, 3, 5] [2, 3, 7] [.labels [2, 3, 7]] [] 1
    (by decide) rfl (by decide) (by decide)).1
  rw [h]
  simp [lunnMerge]

/-- **C8 (counterexample).** The claim says `lunion` replaces the TOS
and keeps the stack depth unchanged.  On the two-operand stack
`[B = [1], A = [2]]` (A at TOS), `lunn 1` pushes the union instead:
the result has three operands — `A` is still present below the pushed
union — so the depth grew from 2 to 3. -/
theorem lunn_replaces_tos_counterexample :
    Stack.lunn ⟨[.labels [2], .labels [1]], []⟩ 1 =
        .ok ⟨[.labels [1, 2], .labels [2], .labels [1]], []⟩
    ∧ [Operand.labels [1, 2], .labels [2], .labels [1]].length ≠
        [Operand.labels [2], .labels [1]].length := by
  constructor
  · simp [Stack.lunn, Stack.peekPair, lunnMerge]
  · decide

/-- **C8 (amended).** Whenever `lunn` succeeds, it pushes the union of
the `Labels` at TOS and the `Labels` at depth `pos` on top of the
otherwise untouched stack: every operand of the original stack —
including `A`, formerly at TOS — keeps its slot, the registers are
unchanged, and the stack depth grows by one. -/
theorem lunn_pushes_union (s : Stack) (pos : Nat) (s' : Stack)
    (h : Stack.lunn s pos = .ok s') :
    ∃ A B, s.stack.get? 0 = some (.labels A)
      ∧ s.stack.get? pos = some (.labels B)
      ∧ s'.stack = .labels (lunnMerge A B) :: s.stack
      ∧ s'.registry = s.registry
      ∧ s'.stack.length = s.stack.length + 1 := by
  unfold Stack.lunn Stack.peekPair at h
  rcases s with ⟨stk, reg⟩
  rcases stk with _ | ⟨v1, rest⟩
  · simp at h
  · simp only at h
    by_cases h1 : rest.length < pos
    · rw [if_pos h1] at h; cases h
    rw [if_neg h1] at h
    by_cases h0 : pos = 0
    · rw [if_pos h0] at h; cases h
    rw [if_neg h0] at h
    rcases hg : rest.get? (pos - 1) with _ | v2 <;> rw [hg] at h
    · cases h
    rcases v1 with _ | A | d | x | l <;> try cases h
    rcases v2 with _ | B | d | x | l <;> try cases h
    refine ⟨A, B, rfl, ?_, by simp, by simp, by simp⟩
    obtain ⟨k, rfl⟩ : ∃ k, pos = k + 1 := ⟨pos - 1, by omega⟩
    simpa using hg

/-- Witness for C8: `lunn 1` on the stack `[B = [5], A = [4,6]]`. -/
theorem lunn_pushes_union_witness :
    ∃ A B,
      (⟨[.labels [4, 6], .labels [5]], []⟩ : Stack).stack.get? 0 =
          some (.labels A)
      ∧ (⟨[.labels [4, 6], .labels [5]], []⟩ : Stack).stack.get? 1 =
          some (.labels B)
      ∧ (⟨.labels (lunnMerge [4, 6] [5]) :: [.labels [4, 6], .labels [5]],
            []⟩ : Stack).stack =
          .labels (lunnMerge A B) ::
            (⟨[.labels [4, 6], .labels [5]], []⟩ : Stack).stack
      ∧ (⟨.labels (lunnMerge [4, 6] [5]) :: [.labels [4, 6], .labels [5]],
            []⟩ : Stack).registry =
          (⟨[.labels [4, 6], .labels [5]], []⟩ : Stack).registry
      ∧ (⟨.labels (lunnMerge [4, 6] [5]) :: [.labels [4, 6], .labels [5]],
            []⟩ : Stack).stack.length =
          (⟨[.labels [4, 6], .labels [5]], []⟩ : Stack).stack.length + 1 :=
  lunn_pushes_union ⟨[.labels [4, 6], .labels [5]], []⟩ 1
    ⟨.labels (lunnMerge [4, 6] [5]) :: [.labels [4, 6], .labels [5]], []⟩
    (by rfl)

/-- The componentwise checked subtraction loop of the Vector−Vector arm
fails as soon as some component underflows. -/
theorem zipChecked_sub_underflow (d1 d2 : List Amount)
    (h : ∃ p ∈ d1.zip d2, p.1.val < p.2.val) :
    zipChecked Amount.checked_sub d1 d2 = Option.none := by
  induction d1 generalizing d2 with
  | nil => simp at h
  | cons x xs ih =>
    rcases d2 with _ | ⟨y, ys⟩
    · simp at h
    · rw [zipChecked]
      rcases h with ⟨p, hp, hlt⟩
      rw [List.zip_cons_cons] at hp
      rcases List.mem_cons.mp hp with rfl | hp
      · rw [(Amount.checked_sub_eq_none_iff x y).mpr hlt]
      · cases hxy : Amount.checked_sub x y
        · rfl
        · rw [ih ys ⟨p, hp, hlt⟩]
          rfl

/-- The componentwise checked subtraction loop of the Vector−Scalar arm
fails as soon as some component underflows. -/
theorem mapChecked_sub_underflow (d1 : List Amount) (x2 : Amount)
    (h : ∃ x ∈ d1, x.val < x2.val) :
    mapChecked (fun x => x.checked_sub x2) d1 = Option.none := by
  induction d1 with
  | nil => simp at h
  | cons x xs ih =>
    rw [mapChecked]
    rcases h with ⟨z, hz, hlt⟩
    rcases List.mem_cons.mp hz with rfl | hz
    · rw [(Amount.checked_sub_eq_none_iff z x2).mpr hlt]
    · cases hxy : Amount.checked_sub x x2
      · rfl
      · rw [ih ⟨z, hz, hlt⟩]
        rfl

/-- **C9 (counterexample).** A Scalar−Scalar subtraction that
underflows (`3 − 5` at raw magnitudes) returns `MathOverflow`, not the
`MathUnderflow` the claim requires for every operand shape. -/
theorem sub_scalar_underflow_counterexample :
    Stack.sub ⟨[.scalar (Amount.from_u128_raw 3),
                .scalar (Amount.from_u128_raw 5)], []⟩ 1 = .err .MathOverflow
    ∧ Stack.sub ⟨[.scalar (Amount.from_u128_raw 3),
                  .scalar (Amount.from_u128_raw 5)], []⟩ 1 ≠
        .err .MathUnderflow := by
  constructor
  · decide
  · decide

/-- **C9 (amended).** When a `sub` with `pos > 0` fails because a
componentwise checked subtraction underflows, the error code depends on
the operand shape: Vector−Vector returns `MathUnderflow`, while
Vector−Scalar and Scalar−Scalar return `MathOverflow`. -/
theorem sub_underflow_error_codes :
    (∀ (d1 d2 : List Amount) (rest reg : List Operand) (pos : Nat),
        1 ≤ pos → rest.get? (pos - 1) = some (.vector d2) →
        d1.length = d2.length →
        (∃ p ∈ d1.zip d2, p.1.val < p.2.val) →
        Stack.sub ⟨.vector d1 :: rest, reg⟩ pos = .err .MathUnderflow)
    ∧ (∀ (d1 : List Amount) (x2 : Amount) (rest reg : List Operand) (pos : Nat),
        1 ≤ pos → rest.get? (pos - 1) = some (.scalar x2) →
        (∃ x ∈ d1, x.val < x2.val) →
        Stack.sub ⟨.vector d1 :: rest, reg⟩ pos = .err .MathOverflow)
    ∧ (∀ (x1 x2 : Amount) (rest reg : List Operand) (pos : Nat),
        1 ≤ pos → rest.get? (pos - 1) = some (.scalar x2) →
        x1.val < x2.val →
        Stack.sub ⟨.scalar x1 :: rest, reg⟩ pos = .err .MathOverflow) := by
  refine ⟨?_, ?_, ?_⟩
  · intro d1 d2 rest reg pos hpos hB hlen hex
    have hl : pos - 1 < rest.length := by
      by_contra hc
      push_neg at hc
      rw [List.get?_eq_none.mpr hc] at hB
      cases hB
    unfold Stack.sub Stack.peekPair
    rw [if_neg (by omega)]
    simp only
    rw [if_neg (by omega), if_neg (by omega), hB]
    simp only
    rw [if_neg (by omega), zipChecked_sub_underflow d1 d2 hex]
  · intro d1 x2 rest reg pos hpos hB hex
    have hl : pos - 1 < rest.length := by
      by_contra hc
      push_neg at hc
      rw [List.get?_eq_none.mpr hc] at hB
      cases hB
    unfold Stack.sub Stack.peekPair
    rw [if_neg (by omega)]
    simp only
    rw [if_neg (by omega), if_neg (by omega), hB]
    simp only
    rw [mapChecked_sub_underflow d1 x2 hex]
  · intro x1 x2 rest reg pos hpos hB hlt
    have hl : pos - 1 < rest.length := by
      by_contra hc
      push_neg at hc
      rw [List.get?_eq_none.mpr hc] at hB
      cases hB
    unfold Stack.sub Stack.peekPair
    rw [if_neg (by omega)]
    simp only
    rw [if_neg (by omega), if_neg (by omega), hB]
    simp only
    rw [(Amount.checked_sub_eq_none_iff x1 x2).mpr hlt]

/-- Witness for C9 on singleton operands `1 − 2` in each of the three
shapes. -/
theorem sub_underflow_error_codes_witness :
    Stack.sub ⟨[.vector [Amount.from_u128_raw 1],
                .vector [Amount.from_u128_raw 2]], []⟩ 1 = .err .MathUnderflow
    ∧ Stack.sub ⟨[.vector [Amount.from_u128_raw 1],
                  .scalar (Amount.from_u128_raw 2)], []⟩ 1 = .err .MathOverflow
    ∧ Stack.sub ⟨[.scalar (Amount.from_u128_raw 1),
                  .scalar (Amount.from_u128_raw 2)], []⟩ 1 = .err .MathOverflow := by
  have h := sub_underflow_error_codes
  exact ⟨h.1 [Amount.from_u128_raw 1] [Amount.from_u128_raw 2]
             [.vector [Amount.from_u128_raw 2]] [] 1 (by decide) rfl (by decide)
             (by decide),
         h.2.1 [Amount.from_u128_raw 1] (Amount.from_u128_raw 2)
             [.scalar (Amount.from_u128_raw 2)] [] 1 (by decide) rfl (by decide),
         h.2.2 (Amount.from_u128_raw 1) (Amount.from_u128_raw 2)
             [.scalar (Amount.from_u128_raw 2)] [] 1 (by decide) rfl (by decide)⟩

end Deindex
